import Mathlib

/-!
Shallow embedding of EasyFileSorter.py (class EasyFileSorter) and the
filesystem/stdlib facilities it uses, together with theorems checking the
specification claims about date resolution, path planning, collision
renaming, scanning and transfer orchestration.

Modeling conventions:
* Python datetime values are a record of six natural numbers.
* The filesystem is a record of a list of directory paths and an
  association list from file paths to file data (content, mtime, EXIF tags).
* Python str of an int is modeled by natToDec (decimal rendering); the
  format spec 02d is modeled by fmt02.
* os.path.join, os.path.basename, os.path.splitext follow the posixpath
  implementations, written over the character list of the string.
* Exceptions are modeled with Except or with an Option String error
  component: a some error means the corresponding Python call raised.
-/

/-- Model of a Python datetime value (the fields the program reads). -/
structure DateTime where
  year : Nat
  month : Nat
  day : Nat
  hour : Nat
  minute : Nat
  second : Nat
deriving DecidableEq

/-- Decimal digit characters of a natural number, accumulator style; the
fuel argument is always given as n + 1, which is enough since a number
needs at most n + 1 digits. -/
def natToDecCore : Nat → Nat → List Char → List Char
  | 0, _, acc => acc
  | fuel + 1, n, acc =>
    let d := Char.ofNat (48 + n % 10)
    if n < 10 then d :: acc
    else natToDecCore fuel (n / 10) (d :: acc)

/-- Model of Python str applied to a nonnegative int: decimal rendering
with no padding. -/
def natToDec (n : Nat) : String := String.mk (natToDecCore (n + 1) n [])

/-- Model of the Python format spec 02d: decimal rendering left padded
with zeros to width two. -/
def fmt02 (n : Nat) : String :=
  if n < 10 then "0" ++ natToDec n else natToDec n

/-- Whether a string starts with the path separator (b.startswith(sep) in
posixpath.join). -/
def strStartsWithSlash (s : String) : Bool :=
  match s.data with
  | [] => false
  | c :: _ => c == '/'

/-- Whether a string ends with the path separator (path.endswith(sep) in
posixpath.join). -/
def strEndsWithSlash (s : String) : Bool :=
  match s.data.getLast? with
  | none => false
  | some c => c == '/'

/-- Model of os.path.join on two components (posixpath.join): an absolute
second component discards the first; otherwise the separator is inserted
unless the first component is empty or already ends with the separator. -/
def pathJoin (a b : String) : String :=
  if strStartsWithSlash b then b
  else if a = "" then a ++ b
  else if strEndsWithSlash a then a ++ b
  else a ++ "/" ++ b

/-- Index of the last occurrence of a character (Python str.rfind),
returning none when the character does not occur. -/
def rfindIdx (cs : List Char) (c : Char) : Option Nat :=
  match cs.reverse.findIdx? (fun x => x == c) with
  | none => none
  | some i => some (cs.length - 1 - i)

/-- Model of os.path.basename: the part after the last separator. -/
def basename (p : String) : String :=
  match rfindIdx p.data '/' with
  | none => p
  | some i => String.mk (p.data.drop (i + 1))

/-- Model of os.path.splitext (posixpath): split at the last dot, provided
it lies after the last separator and at least one character of the base
name before it is not a dot (so leading dots do not start an extension). -/
def splitext (p : String) : String × String :=
  let cs := p.data
  match rfindIdx cs '.' with
  | none => (p, "")
  | some di =>
    let fi := match rfindIdx cs '/' with
      | none => 0
      | some si => si + 1
    if fi ≤ di ∧ ((cs.drop fi).take (di - fi)).any (fun c => !(c == '.')) then
      (String.mk (cs.take di), String.mk (cs.drop di))
    else (p, "")

/-- Candidate produced from a colliding filename in _get_new_filename:
os.path.splitext(filename)[0] + "_1" + os.path.splitext(filename)[1]. -/
def new_filename (filename : String) : String :=
  (splitext filename).1 ++ "_1" ++ (splitext filename).2

/-- Priority search over the EXIF tag dictionary, mirroring the
if/elif chain in _get_date_from_file. -/
def exifDateTag (tags : List (String × String)) : Option String :=
  match tags.lookup "EXIF DateTimeOriginal" with
  | some v => some v
  | none =>
    match tags.lookup "Image DateTimeOriginal" with
    | some v => some v
    | none =>
      match tags.lookup "Image DateTime" with
      | some v => some v
      | none =>
        match tags.lookup "EXIF DateTimeDigitized" with
        | some v => some v
        | none => none

/-- Model of Python str applied to the exif_date variable, which is either
a tag value or None. -/
def pyStrOpt : Option String → String
  | none => "None"
  | some s => s

/-- Gregorian leap year test, as used by the datetime constructor. -/
def isLeapYear (y : Nat) : Bool :=
  (y % 4 == 0 && y % 100 != 0) || y % 400 == 0

/-- Number of days of a month, as validated by the datetime constructor. -/
def daysInMonth (y m : Nat) : Nat :=
  if m == 2 then (if isLeapYear y then 29 else 28)
  else if m == 4 || m == 6 || m == 9 || m == 11 then 30 else 31

/-- Model of datetime.strptime(s, "%Y:%m:%d %H:%M:%S") combined with the
range validation of the datetime constructor: the input must be exactly
four digits, colon, two digits, colon, two digits, space, two digits,
colon, two digits, colon, two digits, and the fields must denote a valid
timestamp; every other input raises ValueError, modeled as the error
case carrying the message. -/
def strptimeExif (s : String) : Except String DateTime :=
  let bad : Except String DateTime :=
    .error ("time data " ++ s ++ " does not match format %Y:%m:%d %H:%M:%S")
  match s.data with
  | [y1, y2, y3, y4, c1, m1, m2, c2, d1, d2, sp, h1, h2, c3, n1, n2, c4, s1, s2] =>
    if ([y1, y2, y3, y4, m1, m2, d1, d2, h1, h2, n1, n2, s1, s2].all Char.isDigit
        && c1 == ':' && c2 == ':' && sp == ' ' && c3 == ':' && c4 == ':') then
      let num2 := fun (a b : Char) => (a.toNat - 48) * 10 + (b.toNat - 48)
      let y := (y1.toNat - 48) * 1000 + (y2.toNat - 48) * 100 + num2 y3 y4
      let mo := num2 m1 m2
      let d := num2 d1 d2
      let h := num2 h1 h2
      let mi := num2 n1 n2
      let se := num2 s1 s2
      if (1 ≤ y && 1 ≤ mo && mo ≤ 12 && 1 ≤ d && d ≤ daysInMonth y mo
          && h ≤ 23 && mi ≤ 59 && se ≤ 59) then
        .ok ⟨y, mo, d, h, mi, se⟩
      else bad
    else bad
  | _ => bad

/-- Warning text logged by _get_date_from_file when strptime raises, with
the ValueError message interpolated (logging level: warning). -/
def warnMsg (e : String) : String :=
  "Unable to read date from EXIF or given date is not valid: " ++ e ++
  " \nLet\x27s read file modification date."

/-- Data of one file on the modeled filesystem: an abstract content
identifier, the modification time already converted to a local datetime
(datetime.fromtimestamp of os.path.getmtime), and the EXIF tag
dictionary that exifread.process_file would return. -/
structure FileData where
  content : Nat
  mtime : DateTime
  exif : List (String × String)
deriving DecidableEq

/-- Modeled filesystem state: existing directories and existing files. -/
structure FS where
  dirs : List String
  files : List (String × FileData)
deriving DecidableEq

/-- Model of os.path.isdir. -/
def FS.isDir (fs : FS) (p : String) : Bool := fs.dirs.contains p

/-- Lookup of the data of an existing file; none models that opening or
stating the path raises because no such file exists. -/
def FS.lookupFile (fs : FS) (p : String) : Option FileData := fs.files.lookup p

/-- Model of os.path.exists: true for existing files and directories. -/
def FS.pathExists (fs : FS) (p : String) : Bool :=
  (fs.files.lookup p).isSome || fs.dirs.contains p

/-- Creation or replacement of a file (the copy or rename target). -/
def FS.addFile (fs : FS) (p : String) (fd : FileData) : FS :=
  { fs with files := (p, fd) :: fs.files.filter (fun kv => !(kv.1 == p)) }

/-- Removal of a file (the source of a completed move). -/
def FS.removeFile (fs : FS) (p : String) : FS :=
  { fs with files := fs.files.filter (fun kv => !(kv.1 == p)) }

/-- Split of the character list of a path at every separator. -/
def splitSlashAux : List Char → List Char → List (List Char)
  | [], acc => [acc.reverse]
  | c :: rest, acc =>
    if c == '/' then acc.reverse :: splitSlashAux rest []
    else splitSlashAux rest (c :: acc)

/-- Components of a path between separators. -/
def splitSlash (s : String) : List String :=
  (splitSlashAux s.data []).map String.mk

/-- Join of path components with the separator. -/
def joinSlash : List String → String
  | [] => ""
  | [x] => x
  | x :: rest => x ++ "/" ++ joinSlash rest

/-- Model of os.makedirs: the directory itself is created (the final
mkdir(name) of the makedirs recursion) together with every ancestor
produced by repeatedly splitting off the last component, which the
makedirs recursion creates first. -/
def FS.makedirs (fs : FS) (p : String) : FS :=
  let parts := splitSlash p
  { fs with dirs :=
      p :: ((List.range parts.length).map (fun i => joinSlash (parts.take (i + 1)))) ++ fs.dirs }

/-- Filesystem-time branch of _get_date_from_file (the use_exif=False
case): os.path.getmtime followed by datetime.fromtimestamp, raising
OSError when the file does not exist. The second component is the list
of warning messages logged, newest first. -/
def mtime_date (fs : FS) (path_to_file : String) : Except String (DateTime × List String) :=
  match fs.lookupFile path_to_file with
  | none => .error ("OSError: could not stat " ++ path_to_file)
  | some fd => .ok (fd.mtime, [])

/-- Model of EasyFileSorter._get_date_from_file. With use_exif the file
is opened (IOError when absent), the EXIF tag dictionary is searched by
the if/elif chain, and strptime is applied to str of the result; a
ValueError is caught, a warning is logged, and the function retries
itself with use_exif=False, which is exactly the mtime branch. -/
def get_date_from_file (fs : FS) (path_to_file : String) (use_exif : Bool) :
    Except String (DateTime × List String) :=
  if use_exif then
    match fs.lookupFile path_to_file with
    | none => .error ("IOError: could not open " ++ path_to_file)
    | some fd =>
      match strptimeExif (pyStrOpt (exifDateTag fd.exif)) with
      | .ok dt => .ok (dt, [])
      | .error e =>
        match mtime_date fs path_to_file with
        | .ok (dt, logs) => .ok (dt, warnMsg e :: logs)
        | .error e2 => .error e2
  else mtime_date fs path_to_file

/-- Destination directory computed in transfer_files:
os.path.join(destination_dir, str(year), "{year}-{month:02d}",
"{year}-{month:02d}-{day:02d}"), with the variadic os.path.join folded
left over the components. -/
def plan_path (destination_dir : String) (md : DateTime) : String :=
  let year := natToDec md.year
  pathJoin (pathJoin (pathJoin destination_dir year)
      (year ++ "-" ++ fmt02 md.month))
    (year ++ "-" ++ fmt02 md.month ++ "-" ++ fmt02 md.day)

/-- Paths of every filesystem entry, used as the termination measure of
the collision resolver. -/
def FS.allPaths (fs : FS) : List String := fs.files.map Prod.fst ++ fs.dirs

example : natToDec 2021 = "2021" := by decide
example : fmt02 3 = "03" := by decide
example : fmt02 12 = "12" := by decide
example : pathJoin "dest" "2021" = "dest/2021" := by decide
example : basename "src/photo.jpg" = "photo.jpg" := by decide
example : splitext "photo.jpg" = ("photo", ".jpg") := by decide
example : splitext ".bashrc" = (".bashrc", "") := by decide
example : splitext "noext" = ("noext", "") := by decide
example : new_filename "photo.jpg" = "photo_1.jpg" := by decide
example : new_filename "photo_1.jpg" = "photo_1_1.jpg" := by decide
example : strptimeExif "2021:03:07 10:20:30" = .ok ⟨2021, 3, 7, 10, 20, 30⟩ := rfl
example : (strptimeExif "None").isOk = false := by decide
example : (strptimeExif "2021:02:30 10:20:30").isOk = false := by decide
example : splitSlash "dst/2021/2021-03" = ["dst", "2021", "2021-03"] := by decide

theorem countP_lt_of {α} (p q : α → Bool) (himp : ∀ a, q a = true → p a = true) :
    ∀ (l : List α) (x : α), x ∈ l → p x = true → q x = false →
      l.countP q < l.countP p := by
  intro l x hx hp hq
  have e1 : (if (true = true) then (1 : Nat) else 0) = 1 := rfl
  have e0 : (if (false = true) then (1 : Nat) else 0) = 0 := rfl
  induction l with
  | nil => cases hx
  | cons y t ih =>
    rw [List.countP_cons, List.countP_cons]
    rcases List.mem_cons.mp hx with h | h
    · subst h
      rw [hp, hq, e1, e0]
      have hmono : t.countP q ≤ t.countP p :=
        List.countP_mono_left (fun a _ ha => himp a ha)
      omega
    · have h1 := ih h
      have h2 : q y = true → p y = true := himp y
      cases hqy : q y
      · rw [e0]
        cases hpy : p y
        · rw [e0]; omega
        · rw [e1]; omega
      · rw [h2 hqy, e1]
        omega

theorem lookup_isSome_mem_keys {β} {l : List (String × β)} {k : String} :
    (l.lookup k).isSome = true → k ∈ l.map Prod.fst := by
  induction l with
  | nil => intro h; simp [List.lookup] at h
  | cons a t ih =>
    intro h
    rw [List.lookup] at h
    by_cases hk : k == a.1
    · simp only [List.map_cons, List.mem_cons]
      exact Or.inl (by exact eq_of_beq hk)
    · simp only [Bool.not_eq_true] at hk
      rw [hk] at h
      exact List.mem_cons_of_mem _ (ih h)

theorem pathExists_mem_allPaths {fs : FS} {p : String} :
    fs.pathExists p = true → p ∈ fs.allPaths := by
  intro h
  rw [FS.pathExists, Bool.or_eq_true] at h
  rcases h with h | h
  · exact List.mem_append_left _ (lookup_isSome_mem_keys h)
  · exact List.mem_append_right _ (by simpa using h)

theorem string_append_empty (s : String) : s ++ "" = s := by
  apply String.toList_inj.mp
  show (s ++ "").data = s.data
  rw [String.data_append]
  exact List.append_nil _

theorem splitext_append (p : String) : (splitext p).1 ++ (splitext p).2 = p := by
  rw [splitext]
  cases hdi : rfindIdx p.data '.' with
  | none => exact string_append_empty p
  | some di =>
    simp only []
    split
    · apply String.toList_inj.mp
      show (String.mk (p.data.take di) ++ String.mk (p.data.drop di)).data = p.data
      rw [String.data_append]
      exact List.take_append_drop di p.data
    · exact string_append_empty p

theorem new_filename_length (p : String) :
    (new_filename p).length = p.length + 2 := by
  have h := congrArg String.length (splitext_append p)
  rw [String.length_append] at h
  rw [new_filename, String.length_append, String.length_append]
  have h2 : ("_1").length = 2 := rfl
  omega

theorem splitext_fst_nil (p : String) :
    ((splitext p).1).data = [] → p.data = [] := by
  rw [splitext]
  cases hdi : rfindIdx p.data '.' with
  | none => exact fun h => h
  | some di =>
    simp only []
    split
    · rename_i hcond
      intro h
      exfalso
      have htake : p.data.take di = [] := h
      rcases List.take_eq_nil_iff.mp htake with h0 | h0
      · rcases hcond with ⟨hfi, hany⟩
        subst h0
        have hfi0 : (match rfindIdx p.data '/' with
            | none => 0
            | some si => si + 1) = 0 := Nat.le_zero.mp hfi
        rw [hfi0] at hany
        simp at hany
      · rw [h0, rfindIdx] at hdi
        simp at hdi
    · exact fun h => h

theorem new_filename_startsSlash (p : String) :
    strStartsWithSlash (new_filename p) = strStartsWithSlash p := by
  have hround := splitext_append p
  have hdata : ((splitext p).1).data ++ ((splitext p).2).data = p.data := by
    rw [← String.data_append, hround]
  cases hr : ((splitext p).1).data with
  | nil =>
    have hp : p.data = [] := splitext_fst_nil p hr
    rw [hr, List.nil_append] at hdata
    have hnf : (new_filename p).data = '_' :: '1' :: ((splitext p).2).data := by
      rw [new_filename, String.data_append, String.data_append, hr]
      rfl
    rw [strStartsWithSlash, strStartsWithSlash, hp, hnf, hdata, hp]
    rfl
  | cons c rest =>
    have h1 : (new_filename p).data = c :: (rest ++ ('_' :: '1' :: ((splitext p).2).data)) := by
      rw [new_filename, String.data_append, String.data_append, hr]
      simp
    have h2 : p.data = c :: (rest ++ ((splitext p).2).data) := by
      rw [← hdata, hr]
      simp
    rw [strStartsWithSlash, strStartsWithSlash, h1, h2]

theorem pathJoin_length_step (a n : String) :
    (pathJoin a (new_filename n)).length = (pathJoin a n).length + 2 := by
  rw [pathJoin, pathJoin, new_filename_startsSlash]
  by_cases hb : strStartsWithSlash n = true
  · rw [if_pos hb, if_pos hb]
    exact new_filename_length n
  · rw [if_neg hb, if_neg hb]
    by_cases ha : a = ""
    · rw [if_pos ha, if_pos ha, String.length_append, String.length_append,
        new_filename_length]
      omega
    · rw [if_neg ha, if_neg ha]
      by_cases hs : strEndsWithSlash a = true
      · rw [if_pos hs, if_pos hs, String.length_append, String.length_append,
          new_filename_length]
        omega
      · rw [if_neg hs, if_neg hs, String.length_append, String.length_append,
          String.length_append, String.length_append, new_filename_length]
        omega

/-- Model of EasyFileSorter._get_new_filename: while the joined path
exists, insert the literal _1 before the extension and retry; the result
is the full joined path of the first candidate that does not exist. -/
def get_new_filename (fs : FS) (destination_directory filename : String) : String :=
  if h : fs.pathExists (pathJoin destination_directory filename) then
    get_new_filename fs destination_directory (new_filename filename)
  else pathJoin destination_directory filename
termination_by
  fs.allPaths.countP (fun s => decide ((pathJoin destination_directory filename).length ≤ s.length))
decreasing_by
  apply countP_lt_of _ _ ?imp fs.allPaths (pathJoin destination_directory filename)
    (pathExists_mem_allPaths h) ?p ?q
  case imp =>
    intro a ha
    rw [pathJoin_length_step] at ha
    simp only [decide_eq_true_eq] at ha ⊢
    omega
  case p =>
    simp only [decide_eq_true_eq]
    omega
  case q =>
    rw [pathJoin_length_step]
    simp only [decide_eq_false_iff_not]
    omega

/-- Model of shutil.move as called by transfer_files. When the
destination is an existing directory, the real destination is the
directory joined with the basename of the source, and shutil.move raises
shutil.Error if that real destination already exists; otherwise the file
is renamed onto the destination path. -/
def shutil_move (fs : FS) (src dst : String) : FS × Option String :=
  match fs.lookupFile src with
  | none => (fs, some ("IOError: could not read " ++ src))
  | some fd =>
    if fs.isDir dst then
      let real_dst := pathJoin dst (basename src)
      if fs.pathExists real_dst then
        (fs, some ("Error: Destination path " ++ real_dst ++ " already exists"))
      else ((fs.removeFile src).addFile real_dst fd, none)
    else ((fs.removeFile src).addFile dst fd, none)

/-- Model of shutil.copy2 as called by transfer_files. When the
destination is an existing directory, the file is copied into it under
the basename of the source, silently replacing an existing file of that
name; content and metadata (mtime) are duplicated. -/
def shutil_copy2 (fs : FS) (src dst : String) : FS × Option String :=
  match fs.lookupFile src with
  | none => (fs, some ("IOError: could not read " ++ src))
  | some fd =>
    let real_dst := if fs.isDir dst then pathJoin dst (basename src) else dst
    (fs.addFile real_dst fd, none)

/-- Configuration of a run, as stored by EasyFileSorter.__init__. -/
structure Config where
  source_dir : String
  destination_dir : String
  remove_original_files : Bool
  overwrite : Bool
  use_exif : Bool
deriving DecidableEq

/-- Model of EasyFileSorter.__init__ after storing the options: raises
EFSError naming the offending path when the source is not an existing
directory; the destination is not inspected at all. -/
def efs_init (fs : FS) (cfg : Config) : Except String Unit :=
  if fs.isDir cfg.source_dir then .ok ()
  else .error (cfg.source_dir ++ " is not existing directory")

/-- Body of the per-file loop of transfer_files: resolve the date, plan
the destination directory, create it if absent, pick the final target
(collision resolution only when overwrite is off), then move or copy.
The Option String component carries the exception raised by the first
failing step, with the filesystem state at that moment. -/
def transfer_one (cfg : Config) (fs : FS) (f : String × String) : FS × Option String :=
  let original_file := pathJoin f.1 f.2
  match get_date_from_file fs original_file cfg.use_exif with
  | .error e => (fs, some e)
  | .ok (modification_date, _) =>
    let new_path := plan_path cfg.destination_dir modification_date
    let fs1 := if fs.isDir new_path then fs else fs.makedirs new_path
    let target := if !cfg.overwrite then get_new_filename fs1 new_path f.2 else new_path
    if cfg.remove_original_files then shutil_move fs1 original_file target
    else shutil_copy2 fs1 original_file target

/-- Model of EasyFileSorter.transfer_files over the list of found files.
The loop body has no exception handler, so the first per-file exception
stops the iteration and propagates, leaving the filesystem as the failed
step left it; the remaining records are not touched. -/
def transfer_files (cfg : Config) : FS → List (String × String) → FS × Option String
  | fs, [] => (fs, none)
  | fs, f :: rest =>
    match transfer_one cfg fs f with
    | (fs2, none) => transfer_files cfg fs2 rest
    | (fs2, some e) => (fs2, some e)

mutual
/-- Source directory tree: the files directly in a directory and its
named subdirectories. -/
inductive DirTree where
  | mk (files : List String) (subdirs : DirList)
inductive DirList where
  | nil
  | cons (name : String) (tree : DirTree) (rest : DirList)
end

/-- Files directly in the root of a tree. -/
def DirTree.files : DirTree → List String
  | .mk fls _ => fls

mutual
/-- Model of os.walk (topdown): one (dirpath, filenames) entry per
directory, the root first, then the subdirectories in order. -/
def walk (t : DirTree) (root : String) : List (String × List String) :=
  match t with
  | .mk fls subdirs => (root, fls) :: walkList subdirs root
def walkList (l : DirList) (root : String) : List (String × List String) :=
  match l with
  | .nil => []
  | .cons name t rest => walk t (pathJoin root name) ++ walkList rest root
end

/-- Loop of EasyFileSorter.scan_directory over the os.walk entries: the
files of each entry are appended as (root, file_name) records, and
without the recursive flag the loop breaks after the first entry. -/
def scan_loop : List (String × List String) → Bool → List (String × String)
  | [], _ => []
  | (root, fls) :: rest, recursive =>
    fls.map (fun f => (root, f)) ++ (if recursive then scan_loop rest recursive else [])

/-- Model of EasyFileSorter.scan_directory on a source tree. -/
def scan_directory (source_dir : String) (t : DirTree) (recursive : Bool) :
    List (String × String) :=
  scan_loop (walk t source_dir) recursive

/-- Concrete run of C1: a JPEG whose Image DateTime tag does not parse
resolves without an exception to its filesystem mtime with one warning. -/
def fdC1 : FileData := ⟨7, ⟨2020, 5, 6, 1, 2, 3⟩, [("Image DateTime", "not a timestamp")]⟩

def fsC1 : FS := ⟨[], [("src/a.jpg", fdC1)]⟩

/-- Concrete run of C6: a file with no EXIF date tag at all resolves to
the same calendar date under both policies. -/
def fdC6 : FileData := ⟨9, ⟨2019, 12, 31, 23, 59, 58⟩, [("Image Model", "X100")]⟩

def fsC6 : FS := ⟨[], [("s/b.raw", fdC6)]⟩

/-- Filesystem with one directory d that already holds photo.jpg. -/
def photoFD : FileData := ⟨1, ⟨2021, 3, 7, 0, 0, 0⟩, []⟩

def fsPhoto1 : FS := ⟨["d"], [("d/photo.jpg", photoFD)]⟩

/-- Filesystem holding both photo.jpg and photo_1.jpg. -/
def fsPhoto2 : FS := ⟨["d"], [("d/photo.jpg", photoFD), ("d/photo_1.jpg", photoFD)]⟩

/-- Source tree with one file in the root and one file in a nested
subdirectory. -/
def treeC8 : DirTree := .mk ["a.txt"] (.cons "sub" (.mk ["b.txt"] .nil) .nil)

/-- Destination file already present before the colliding transfer. -/
def fdOld : FileData := ⟨1, ⟨2021, 3, 7, 10, 0, 0⟩, []⟩

/-- Source file to be transferred over the existing one. -/
def fdNew : FileData := ⟨2, ⟨2021, 3, 7, 12, 0, 0⟩, []⟩

/-- Filesystem where the dated destination directory already contains
photo.jpg and the source holds a newer photo.jpg. -/
def fsC2 : FS :=
  ⟨["dst", "dst/2021", "dst/2021/2021-03", "dst/2021/2021-03/2021-03-07"],
    [("dst/2021/2021-03/2021-03-07/photo.jpg", fdOld), ("src/photo.jpg", fdNew)]⟩

def cfgMoveOverwrite : Config := ⟨"src", "dst", true, true, false⟩

def cfgCopyOverwrite : Config := ⟨"src", "dst", false, true, false⟩

/-- Readable file a.txt of the C3 batch. -/
def fdA : FileData := ⟨3, ⟨2020, 1, 2, 3, 4, 5⟩, []⟩

/-- Readable file c.txt of the C3 batch. -/
def fdC : FileData := ⟨4, ⟨2020, 3, 4, 5, 6, 7⟩, []⟩

/-- Filesystem for the C3 batch: a.txt and c.txt exist, b.txt does not,
so processing b.txt raises when its mtime is read. -/
def fsC3 : FS := ⟨["s"], [("s/a.txt", fdA), ("s/c.txt", fdC)]⟩

def cfgC3 : Config := ⟨"s", "dst", false, true, false⟩

def recsC3 : List (String × String) := [("s", "a.txt"), ("s", "b.txt"), ("s", "c.txt")]

/-- Readable file of the C10 run. -/
def fdC10 : FileData := ⟨5, ⟨2022, 7, 9, 1, 2, 3⟩, []⟩

/-- Filesystem of the C10 run: the source directory exists, the
destination tree does not exist at all. -/
def fsC10 : FS := ⟨["s"], [("s/a.txt", fdC10)]⟩

def cfgC10 : Config := ⟨"s", "dst", false, true, false⟩

theorem digitChar_isDigit {k : Nat} (h : k < 10) :
    (Char.ofNat (48 + k)).isDigit = true := by
  interval_cases k <;> decide

theorem natToDecCore_digits :
    ∀ (fuel n : Nat) (acc : List Char), (∀ c ∈ acc, c.isDigit = true) →
      ∀ c ∈ natToDecCore fuel n acc, c.isDigit = true := by
  intro fuel
  induction fuel with
  | zero => intro n acc hacc; exact hacc
  | succ k ih =>
    intro n acc hacc c hc
    rw [natToDecCore] at hc
    have hd : (Char.ofNat (48 + n % 10)).isDigit = true :=
      digitChar_isDigit (Nat.mod_lt n (by omega))
    have hcons : ∀ x ∈ (Char.ofNat (48 + n % 10)) :: acc, x.isDigit = true := by
      intro x hx
      rcases List.mem_cons.mp hx with h | h
      · rw [h]; exact hd
      · exact hacc x h
    by_cases hn : n < 10
    · rw [if_pos hn] at hc
      exact hcons c hc
    · rw [if_neg hn] at hc
      exact ih (n / 10) _ hcons c hc

theorem natToDec_digits (n : Nat) :
    ∀ c ∈ (natToDec n).data, c.isDigit = true := by
  intro c hc
  exact natToDecCore_digits (n + 1) n [] (by intro x hx; cases hx) c hc

theorem natToDecCore_length :
    ∀ (fuel n : Nat) (acc : List Char), 1 ≤ fuel →
      acc.length + 1 ≤ (natToDecCore fuel n acc).length := by
  intro fuel
  induction fuel with
  | zero => intro n acc h; omega
  | succ k ih =>
    intro n acc _
    rw [natToDecCore]
    by_cases hn : n < 10
    · rw [if_pos hn]
      simp
    · rw [if_neg hn]
      cases k with
      | zero =>
        rw [natToDecCore]
        simp
      | succ m =>
        have := ih (n / 10) ((Char.ofNat (48 + n % 10)) :: acc) (by omega)
        simp only [List.length_cons] at this
        omega

theorem natToDec_ne_nil (n : Nat) : (natToDec n).data ≠ [] := by
  have h := natToDecCore_length (n + 1) n [] (by omega)
  simp only [List.length_nil] at h
  intro hc
  rw [natToDec] at hc
  have : (natToDecCore (n + 1) n []).length = 0 := by
    rw [show natToDecCore (n + 1) n [] = ([] : List Char) from hc]
    rfl
  omega

theorem fmt02_digits (n : Nat) :
    ∀ c ∈ (fmt02 n).data, c.isDigit = true := by
  intro c hc
  rw [fmt02] at hc
  by_cases hn : n < 10
  · rw [if_pos hn, String.data_append] at hc
    rcases List.mem_append.mp hc with h | h
    · simp at h
      rw [h]; decide
    · exact natToDec_digits n c h
  · rw [if_neg hn] at hc
    exact natToDec_digits n c hc

theorem fmt02_ne_nil (n : Nat) : (fmt02 n).data ≠ [] := by
  rw [fmt02]
  by_cases hn : n < 10
  · rw [if_pos hn, String.data_append]
    simp
  · rw [if_neg hn]
    exact natToDec_ne_nil n

theorem natToDec_length_one {n : Nat} (h : n < 10) : (natToDec n).length = 1 := by
  rw [natToDec]
  show (natToDecCore (n + 1) n []).length = 1
  rw [natToDecCore, if_pos h]
  rfl

theorem natToDec_length_two {n : Nat} (h1 : 10 ≤ n) (h2 : n ≤ 99) :
    (natToDec n).length = 2 := by
  obtain ⟨m, rfl⟩ : ∃ m, n = m + 1 := ⟨n - 1, by omega⟩
  rw [natToDec]
  show (natToDecCore (m + 2) (m + 1) []).length = 2
  rw [natToDecCore, if_neg (by omega)]
  rw [natToDecCore, if_pos (by omega)]
  rfl

theorem fmt02_length_two {n : Nat} (h : n ≤ 99) : (fmt02 n).length = 2 := by
  rw [fmt02]
  by_cases hn : n < 10
  · rw [if_pos hn, String.length_append, natToDec_length_one hn]
    rfl
  · rw [if_neg hn]
    exact natToDec_length_two (by omega) h

theorem startsSlash_append (a b : String) (ha : a.data ≠ []) :
    strStartsWithSlash (a ++ b) = strStartsWithSlash a := by
  rw [strStartsWithSlash, strStartsWithSlash, String.data_append]
  cases hd : a.data with
  | nil => exact absurd hd ha
  | cons c rest => rfl

theorem endsSlash_append (a b : String) (hb : b.data ≠ []) :
    strEndsWithSlash (a ++ b) = strEndsWithSlash b := by
  rw [strEndsWithSlash, strEndsWithSlash, String.data_append,
    List.getLast?_append_of_ne_nil _ hb]

theorem digits_not_startsSlash (s : String)
    (h : ∀ c ∈ s.data, c.isDigit = true) : strStartsWithSlash s = false := by
  rw [strStartsWithSlash]
  cases hd : s.data with
  | nil => rfl
  | cons c rest =>
    have hc : c.isDigit = true := h c (by rw [hd]; exact List.mem_cons_self c rest)
    have : c ≠ '/' := by
      intro hcc
      rw [hcc] at hc
      exact absurd hc (by decide)
    simpa using this

theorem digits_not_endsSlash (s : String)
    (h : ∀ c ∈ s.data, c.isDigit = true) : strEndsWithSlash s = false := by
  rw [strEndsWithSlash]
  cases hd : s.data.getLast? with
  | none => rfl
  | some c =>
    have hmem : c ∈ s.data := by
      rcases List.mem_getLast?_eq_getLast (by rw [hd]; rfl) with ⟨hne, heq⟩
      rw [heq]
      exact List.getLast_mem hne
    have hc : c.isDigit = true := h c hmem
    have : c ≠ '/' := by
      intro hcc
      rw [hcc] at hc
      exact absurd hc (by decide)
    simpa using this

theorem data_ne_nil_ne_empty {s : String} (h : s.data ≠ []) : s ≠ "" := by
  intro hc
  rw [hc] at h
  exact h rfl

theorem append_data_ne_nil_right (a b : String) (hb : b.data ≠ []) :
    (a ++ b).data ≠ [] := by
  rw [String.data_append]
  intro hc
  rcases List.append_eq_nil.mp hc with ⟨_, h2⟩
  exact hb h2

theorem pathJoin_safe (a b : String) (hb : strStartsWithSlash b = false)
    (ha : a ≠ "") (hs : strEndsWithSlash a = false) :
    pathJoin a b = a ++ "/" ++ b := by
  rw [pathJoin, if_neg (by simp [hb]), if_neg ha, if_neg (by simp [hs])]

theorem pathJoin_shape (a b : String) (hb : strStartsWithSlash b = false) :
    pathJoin a b = a ++ b ∨ pathJoin a b = a ++ "/" ++ b := by
  rw [pathJoin, if_neg (by simp [hb])]
  by_cases ha : a = ""
  · rw [if_pos ha]
    exact Or.inl rfl
  · rw [if_neg ha]
    by_cases hs : strEndsWithSlash a = true
    · rw [if_pos hs]
      exact Or.inl rfl
    · rw [if_neg hs]
      exact Or.inr rfl

theorem startsSlash_append_of (a b : String) (hne : a.data ≠ [])
    (ha : strStartsWithSlash a = false) : strStartsWithSlash (a ++ b) = false := by
  rw [startsSlash_append a b hne]
  exact ha

theorem endsSlash_append_of (a b : String) (hne : b.data ≠ [])
    (hb : strEndsWithSlash b = false) : strEndsWithSlash (a ++ b) = false := by
  rw [endsSlash_append a b hne]
  exact hb

theorem plan_path_outer (root : String) (md : DateTime) :
    plan_path root md =
      pathJoin root (natToDec md.year) ++ "/" ++
        (natToDec md.year ++ "-" ++ fmt02 md.month) ++ "/" ++
        (natToDec md.year ++ "-" ++ fmt02 md.month ++ "-" ++ fmt02 md.day) := by
  have hYd := natToDec_digits md.year
  have hYn := natToDec_ne_nil md.year
  have hY : strStartsWithSlash (natToDec md.year) = false :=
    digits_not_startsSlash _ hYd
  have hYM : strStartsWithSlash
      (natToDec md.year ++ "-" ++ fmt02 md.month) = false :=
    startsSlash_append_of _ _ (append_data_ne_nil_right _ _ (by decide))
      (startsSlash_append_of _ _ hYn hY)
  have hYMD : strStartsWithSlash
      (natToDec md.year ++ "-" ++ fmt02 md.month ++ "-" ++ fmt02 md.day) = false :=
    startsSlash_append_of _ _ (append_data_ne_nil_right _ _ (by decide))
      (startsSlash_append_of _ _ (append_data_ne_nil_right _ _ (fmt02_ne_nil _)) hYM)
  have hj1ne : (pathJoin root (natToDec md.year)) ≠ "" := by
    rcases pathJoin_shape root (natToDec md.year) hY with h | h <;>
      rw [h] <;> exact data_ne_nil_ne_empty (append_data_ne_nil_right _ _ hYn)
  have hj1es : strEndsWithSlash (pathJoin root (natToDec md.year)) = false := by
    rcases pathJoin_shape root (natToDec md.year) hY with h | h <;> rw [h] <;>
      exact endsSlash_append_of _ _ hYn (digits_not_endsSlash _ hYd)
  have hYMne : (natToDec md.year ++ "-" ++ fmt02 md.month).data ≠ [] :=
    append_data_ne_nil_right _ _ (fmt02_ne_nil _)
  have hj2 := pathJoin_safe (pathJoin root (natToDec md.year))
    (natToDec md.year ++ "-" ++ fmt02 md.month) hYM hj1ne hj1es
  have hj2ne : (pathJoin root (natToDec md.year) ++ "/" ++
      (natToDec md.year ++ "-" ++ fmt02 md.month)) ≠ "" :=
    data_ne_nil_ne_empty (append_data_ne_nil_right _ _ hYMne)
  have hj2es : strEndsWithSlash (pathJoin root (natToDec md.year) ++ "/" ++
      (natToDec md.year ++ "-" ++ fmt02 md.month)) = false :=
    endsSlash_append_of _ _ hYMne
      (endsSlash_append_of _ _ (fmt02_ne_nil _) (digits_not_endsSlash _ (fmt02_digits _)))
  rw [plan_path]
  rw [hj2]
  rw [pathJoin_safe _ _ hYMD hj2ne hj2es]

/-- C1: Under the EmbeddedMetadataPreferred policy (use_exif=True), for a
readable file whose embedded metadata timestamp is absent or fails to
parse under the grammar YYYY:MM:DD HH:MM:SS, date resolution does not
raise: it returns the filesystem modification time together with exactly
one warning-level diagnostic. -/
theorem C1_metadata_fallback_no_raise (fs : FS) (path : String) (fd : FileData)
    (hfd : fs.lookupFile path = some fd)
    (h : exifDateTag fd.exif = none ∨
      ∃ e, strptimeExif (pyStrOpt (exifDateTag fd.exif)) = .error e) :
    ∃ e, get_date_from_file fs path true = .ok (fd.mtime, [warnMsg e]) := by
  have herr : ∃ e, strptimeExif (pyStrOpt (exifDateTag fd.exif)) = .error e := by
    rcases h with h | h
    · rw [h]
      exact ⟨_, rfl⟩
    · exact h
  rcases herr with ⟨e, he⟩
  refine ⟨e, ?_⟩
  simp [get_date_from_file, hfd, he, mtime_date]

theorem C1_metadata_fallback_no_raise_w :
    ∃ e, get_date_from_file fsC1 "src/a.jpg" true = .ok (⟨2020, 5, 6, 1, 2, 3⟩, [warnMsg e]) :=
  C1_metadata_fallback_no_raise fsC1 "src/a.jpg" fdC1 rfl (Or.inr ⟨_, rfl⟩)

/-- C6: For a readable file whose embedded capture timestamp is absent or
unparseable, resolution under EmbeddedMetadataPreferred (use_exif=True)
yields exactly the calendar date that FilesystemTime (use_exif=False)
yields for the same file. -/
theorem C6_fallback_same_calendar_date (fs : FS) (path : String) (fd : FileData)
    (hfd : fs.lookupFile path = some fd)
    (h : exifDateTag fd.exif = none ∨
      ∃ e, strptimeExif (pyStrOpt (exifDateTag fd.exif)) = .error e) :
    Except.map (fun r => (r.1.year, r.1.month, r.1.day))
        (get_date_from_file fs path true) =
      Except.map (fun r => (r.1.year, r.1.month, r.1.day))
        (get_date_from_file fs path false) := by
  have herr : ∃ e, strptimeExif (pyStrOpt (exifDateTag fd.exif)) = .error e := by
    rcases h with h | h
    · rw [h]
      exact ⟨_, rfl⟩
    · exact h
  rcases herr with ⟨e, he⟩
  simp [get_date_from_file, hfd, he, mtime_date]
  rfl

theorem C6_fallback_same_calendar_date_w :
    Except.map (fun r => (r.1.year, r.1.month, r.1.day))
        (get_date_from_file fsC6 "s/b.raw" true) =
      Except.map (fun r => (r.1.year, r.1.month, r.1.day))
        (get_date_from_file fsC6 "s/b.raw" false) :=
  C6_fallback_same_calendar_date fsC6 "s/b.raw" fdC6 rfl (Or.inl rfl)

/-- C4: Under Disambiguate, a desired name that does not exist in the
directory is returned unchanged (joined to the directory); a colliding
name gets a literal _1 before the extension with a recheck after each
append, so photo.jpg becomes photo_1.jpg, and photo_1_1.jpg when
photo_1.jpg also exists. -/
theorem C4_collision_naming :
    (∀ (fs : FS) (dir name : String), fs.pathExists (pathJoin dir name) = false →
      get_new_filename fs dir name = pathJoin dir name)
    ∧ get_new_filename fsPhoto1 "d" "photo.jpg" = "d/photo_1.jpg"
    ∧ get_new_filename fsPhoto2 "d" "photo.jpg" = "d/photo_1_1.jpg" := by
  refine ⟨?_, ?_, ?_⟩
  · intro fs dir name hcond
    rw [get_new_filename, dif_neg (by simp [hcond])]
  · rw [get_new_filename, dif_pos (by decide), get_new_filename, dif_neg (by decide)]
    decide
  · rw [get_new_filename, dif_pos (by decide), get_new_filename, dif_pos (by decide),
      get_new_filename, dif_neg (by decide)]
    decide

theorem C4_collision_naming_w :
    get_new_filename fsPhoto1 "d" "other.txt" = "d/other.txt" :=
  C4_collision_naming.1 fsPhoto1 "d" "other.txt" (by decide)

/-- C5: The planned destination directory is
root/Y/Y-MM/Y-MM-DD, the year rendered in full and month and day
zero-padded to two digits, for any calendar month and day and any root
that is nonempty and does not already end in the separator. -/
theorem C5_plan_path_format (root : String) (y m d hh mi se : Nat)
    (hroot : root ≠ "") (hslash : strEndsWithSlash root = false)
    (hm1 : 1 ≤ m) (hm2 : m ≤ 12) (hd1 : 1 ≤ d) (hd2 : d ≤ 31) :
    plan_path root ⟨y, m, d, hh, mi, se⟩ =
      root ++ "/" ++ natToDec y ++ "/" ++ (natToDec y ++ "-" ++ fmt02 m) ++ "/" ++
        (natToDec y ++ "-" ++ fmt02 m ++ "-" ++ fmt02 d)
    ∧ (fmt02 m).length = 2 ∧ (fmt02 d).length = 2 := by
  refine ⟨?_, fmt02_length_two (by omega), fmt02_length_two (by omega)⟩
  rw [plan_path_outer]
  rw [pathJoin_safe root _ (digits_not_startsSlash _ (natToDec_digits _)) hroot hslash]

theorem C5_plan_path_format_w :
    plan_path "dest" ⟨2021, 3, 7, 11, 22, 33⟩ = "dest/2021/2021-03/2021-03-07" := by
  have h := (C5_plan_path_format "dest" 2021 3 7 11 22 33 (by decide) (by decide)
    (by decide) (by decide) (by decide) (by decide)).1
  rw [h]
  decide

/-- C9: The planned directory always lies inside the destination root:
it equals the root extended with a suffix whose characters are digits,
dashes and separators only (in particular no dot-dot and no reset to an
absolute path), for every root and every resolved date. -/
theorem C9_plan_inside_root (root : String) (md : DateTime) :
    ∃ s : String, plan_path root md = root ++ s ∧
      s.data.all (fun c => c.isDigit || c == '-' || c == '/') = true := by
  have hgood : ∀ (t : String), (∀ c ∈ t.data, c.isDigit = true) →
      t.data.all (fun c => c.isDigit || c == '-' || c == '/') = true := by
    intro t ht
    refine List.all_eq_true.mpr (fun c hc => ?_)
    rw [ht c hc]
    rfl
  have g1 := hgood _ (natToDec_digits md.year)
  have g2 := hgood _ (fmt02_digits md.month)
  have g3 := hgood _ (fmt02_digits md.day)
  have gd : ("-" : String).data.all (fun c => c.isDigit || c == '-' || c == '/') = true := by
    decide
  have gs : ("/" : String).data.all (fun c => c.isDigit || c == '-' || c == '/') = true := by
    decide
  have hY : strStartsWithSlash (natToDec md.year) = false :=
    digits_not_startsSlash _ (natToDec_digits _)
  rcases pathJoin_shape root (natToDec md.year) hY with h | h
  · refine ⟨natToDec md.year ++ "/" ++ (natToDec md.year ++ "-" ++ fmt02 md.month) ++ "/" ++
      (natToDec md.year ++ "-" ++ fmt02 md.month ++ "-" ++ fmt02 md.day), ?_, ?_⟩
    · rw [plan_path_outer, h]
      apply String.toList_inj.mp
      simp only [String.toList, String.data_append, List.append_assoc]
    · simp only [String.data_append, List.all_append, Bool.and_eq_true]
      exact ⟨⟨⟨⟨g1, gs⟩, ⟨⟨g1, gd⟩, g2⟩⟩, gs⟩, ⟨⟨⟨⟨g1, gd⟩, g2⟩, gd⟩, g3⟩⟩
  · refine ⟨"/" ++ natToDec md.year ++ "/" ++ (natToDec md.year ++ "-" ++ fmt02 md.month) ++ "/" ++
      (natToDec md.year ++ "-" ++ fmt02 md.month ++ "-" ++ fmt02 md.day), ?_, ?_⟩
    · rw [plan_path_outer, h]
      apply String.toList_inj.mp
      simp only [String.toList, String.data_append, List.append_assoc]
    · simp only [String.data_append, List.all_append, Bool.and_eq_true]
      exact ⟨⟨⟨⟨⟨gs, g1⟩, gs⟩, ⟨⟨g1, gd⟩, g2⟩⟩, gs⟩, ⟨⟨⟨⟨g1, gd⟩, g2⟩, gd⟩, g3⟩⟩

/-- C7: The collision resolver terminates: every recursive attempt makes
the candidate name exactly two characters longer (the literal _1 before
the extension), and the recursion bottoms out on a path that does not
exist, so only finitely many candidates can collide with the finite set
of existing paths. -/
theorem C7_resolver_terminates :
    (∀ name : String, (new_filename name).length = name.length + 2)
    ∧ ∀ (fs : FS) (dir name : String),
        fs.pathExists (get_new_filename fs dir name) = false := by
  refine ⟨new_filename_length, ?_⟩
  intro fs dir name
  induction name using get_new_filename.induct fs dir with
  | case1 name h ih =>
    rw [get_new_filename, dif_pos h]
    exact ih
  | case2 name h =>
    rw [get_new_filename, dif_neg h]
    simpa using h

/-- C8: Scanning without the recursive flag discovers exactly the files
directly in the source root (the loop breaks after the first os.walk
entry), and scanning with the recursive flag discovers the files of
every directory that os.walk visits, nested subdirectories included. -/
theorem C8_scan_boundary :
    (∀ (src : String) (t : DirTree),
      scan_directory src t false = (DirTree.files t).map (fun f => (src, f)))
    ∧ (∀ (src : String) (t : DirTree),
      scan_directory src t true =
        (walk t src).flatMap (fun e => e.2.map (fun f => (e.1, f))))
    ∧ (∀ (src p : String) (l : List String) (t : DirTree) (f : String),
      (p, l) ∈ walk t src → f ∈ l → (p, f) ∈ scan_directory src t true) := by
  have h2 : ∀ (l : List (String × List String)),
      scan_loop l true = l.flatMap (fun e => e.2.map (fun f => (e.1, f))) := by
    intro l
    induction l with
    | nil => rfl
    | cons e rest ih =>
      cases e with
      | mk root fls => simp [scan_loop, ih]
  refine ⟨?_, ?_, ?_⟩
  · intro src t
    cases t with
    | mk fls subdirs => simp [scan_directory, walk, scan_loop, DirTree.files]
  · intro src t
    rw [scan_directory, h2]
  · intro src p l t f hw hf
    rw [scan_directory, h2]
    exact List.mem_flatMap.mpr ⟨(p, l), hw, List.mem_map.mpr ⟨f, hf, rfl⟩⟩

theorem C8_scan_boundary_w :
    scan_directory "s" treeC8 false = [("s", "a.txt")]
    ∧ ("s/sub", "b.txt") ∈ scan_directory "s" treeC8 true := by
  constructor
  · rw [C8_scan_boundary.1 "s" treeC8]
    decide
  · exact C8_scan_boundary.2.2 "s" "s/sub" ["b.txt"] treeC8 "b.txt" (by decide) (by decide)

/-- C2 (failing run): under Overwrite with Move mode, transferring
src/photo.jpg onto a destination that already holds photo.jpg raises
shutil.Error instead of overwriting - the old content stays at the
destination and the source file is not moved - while the same transfer
in Copy mode does replace the content. -/
theorem C2_overwrite_move_bug :
    (transfer_one cfgMoveOverwrite fsC2 ("src", "photo.jpg")).2 =
      some ("Error: Destination path dst/2021/2021-03/2021-03-07/photo.jpg already exists")
    ∧ (transfer_one cfgMoveOverwrite fsC2 ("src", "photo.jpg")).1.lookupFile
        "dst/2021/2021-03/2021-03-07/photo.jpg" = some fdOld
    ∧ (transfer_one cfgMoveOverwrite fsC2 ("src", "photo.jpg")).1.lookupFile
        "src/photo.jpg" = some fdNew
    ∧ (transfer_one cfgCopyOverwrite fsC2 ("src", "photo.jpg")).2 = none
    ∧ (transfer_one cfgCopyOverwrite fsC2 ("src", "photo.jpg")).1.lookupFile
        "dst/2021/2021-03/2021-03-07/photo.jpg" = some fdNew := by
  refine ⟨?_, ?_, ?_, ?_, ?_⟩ <;> rfl

/-- C3 refutation: in the batch a.txt, b.txt, c.txt where only b.txt
fails, the failure of b.txt aborts the run - the error propagates out of
transfer_files and c.txt, although perfectly transferable, is never
transferred (its destination path stays absent), while a.txt, processed
before the failure, was transferred. -/
theorem C3_batch_abort_cex :
    (transfer_files cfgC3 fsC3 recsC3).2 = some "OSError: could not stat s/b.txt"
    ∧ (transfer_files cfgC3 fsC3 recsC3).1.lookupFile
        "dst/2020/2020-01/2020-01-02/a.txt" = some fdA
    ∧ (transfer_files cfgC3 fsC3 recsC3).1.lookupFile
        "dst/2020/2020-03/2020-03-04/c.txt" = none := by
  refine ⟨?_, ?_, ?_⟩ <;> rfl

/-- C3 (amended): when a record raises a per-file transfer error, the
exception propagates out of transfer_files immediately: the result is
the state and error of the failing step, independent of however many
records follow, which are therefore never processed. -/
theorem C3_abort_propagates (cfg : Config) (fs fs1 : FS) (r : String × String)
    (rs : List (String × String)) (e : String)
    (h : transfer_one cfg fs r = (fs1, some e)) :
    transfer_files cfg fs (r :: rs) = (fs1, some e) := by
  simp [transfer_files, h]

theorem C3_abort_propagates_w :
    transfer_files cfgC3 fsC3 [("s", "b.txt"), ("s", "c.txt")] =
      (fsC3, some "OSError: could not stat s/b.txt") :=
  C3_abort_propagates cfgC3 fsC3 fsC3 ("s", "b.txt") [("s", "c.txt")]
    "OSError: could not stat s/b.txt" rfl

theorem shutil_move_dirs (g : FS) (a b : String) :
    ((shutil_move g a b).1).dirs = g.dirs := by
  rw [shutil_move]
  split
  · rfl
  · split
    · dsimp only
      split
      · rfl
      · rfl
    · rfl

theorem shutil_copy2_dirs (g : FS) (a b : String) :
    ((shutil_copy2 g a b).1).dirs = g.dirs := by
  rw [shutil_copy2]
  split
  · rfl
  · rfl

theorem makedirs_isDir (g : FS) (p : String) : (g.makedirs p).isDir p = true := by
  rw [FS.makedirs, FS.isDir]
  simp

theorem transfer_one_planned_dir (cfg : Config) (fs : FS) (r : String × String)
    (md : DateTime) (logs : List String)
    (hdate : get_date_from_file fs (pathJoin r.1 r.2) cfg.use_exif = .ok (md, logs)) :
    ((transfer_one cfg fs r).1).isDir (plan_path cfg.destination_dir md) = true := by
  by_cases hd : fs.isDir (plan_path cfg.destination_dir md) = true
  · simp only [transfer_one, hdate, hd, if_true]
    split
    · rw [FS.isDir, shutil_move_dirs]
      exact hd
    · rw [FS.isDir, shutil_copy2_dirs]
      exact hd
  · rw [Bool.not_eq_true] at hd
    simp only [transfer_one, hdate, hd, Bool.false_eq_true, if_false]
    split
    · rw [FS.isDir, shutil_move_dirs]
      exact makedirs_isDir fs _
    · rw [FS.isDir, shutil_copy2_dirs]
      exact makedirs_isDir fs _

/-- C10: Construction fails with EFSError naming the offending path
exactly when the source is not an existing directory; the destination
root is never inspected at construction (the result is invariant under
changing it); and the dated destination directory, when absent, is
created during transfer (os.makedirs), so it exists after the record is
processed. -/
theorem C10_init_check_and_lazy_mkdir :
    (∀ (fs : FS) (cfg : Config), efs_init fs cfg = .ok () ↔ fs.isDir cfg.source_dir = true)
    ∧ (∀ (fs : FS) (cfg : Config), fs.isDir cfg.source_dir = false →
        efs_init fs cfg = .error (cfg.source_dir ++ " is not existing directory"))
    ∧ (∀ (fs : FS) (cfg : Config) (d : String),
        efs_init fs cfg = efs_init fs { cfg with destination_dir := d })
    ∧ (∀ (cfg : Config) (fs fs1 : FS) (r : String × String) (md : DateTime)
        (logs : List String),
        get_date_from_file fs (pathJoin r.1 r.2) cfg.use_exif = .ok (md, logs) →
        transfer_one cfg fs r = (fs1, none) →
        fs1.isDir (plan_path cfg.destination_dir md) = true) := by
  refine ⟨?_, ?_, ?_, ?_⟩
  · intro fs cfg
    rw [efs_init]
    by_cases hd : fs.isDir cfg.source_dir = true
    · rw [if_pos hd]
      simp [hd]
    · rw [if_neg hd]
      simp [hd]
  · intro fs cfg h
    rw [efs_init, if_neg (by simp [h])]
  · intro fs cfg d
    rfl
  · intro cfg fs fs1 r md logs hdate htr
    have h1 : fs1 = (transfer_one cfg fs r).1 := by rw [htr]
    rw [h1]
    exact transfer_one_planned_dir cfg fs r md logs hdate

theorem C10_init_check_and_lazy_mkdir_w :
    efs_init fsC10 cfgC10 = .ok ()
    ∧ (transfer_one cfgC10 fsC10 ("s", "a.txt")).1.isDir
        "dst/2022/2022-07/2022-07-09" = true := by
  constructor
  · exact (C10_init_check_and_lazy_mkdir.1 fsC10 cfgC10).mpr (by decide)
  · exact C10_init_check_and_lazy_mkdir.2.2.2 cfgC10 fsC10
      (transfer_one cfgC10 fsC10 ("s", "a.txt")).1 ("s", "a.txt")
      ⟨2022, 7, 9, 1, 2, 3⟩ [] rfl rfl
